import Mathlib

/-!
Verification of the MeowTalk audio-sample processing pipeline
(`cmd/process_samples/process_audio.py`).

The pipeline extracts scalar acoustic features from audio files, validates
them against physical plausibility bounds, and aggregates the labelled
feature records into a sample library.  We embed the arithmetic and
control flow of the Python source shallowly: Python floats become
rationals (ℚ), NumPy NaN becomes `Option`, the per-file `try/except`
that returns `None` becomes `Option`, and the library dictionary becomes
an association list whose key list mirrors the `emotions` list.
-/

namespace MeowTalk

/-- The nine-field feature record built by `extract_features`
(`process_audio.py`, lines 78-88).  All values are Python floats,
embedded as rationals. -/
structure Features where
  Duration : ℚ
  Energy : ℚ
  RootMeanSquare : ℚ
  ZeroCrossRate : ℚ
  PeakFreq : ℚ
  FundamentalFreq : ℚ
  Pitch : ℚ
  SpectralCentroid : ℚ
  SpectralRolloff : ℚ
deriving DecidableEq, Repr

/-- `self.min_freq = 70.0` from `AudioFeatureExtractor.__init__`. -/
def min_freq : ℚ := 70

/-- `self.max_freq = 2000.0` from `AudioFeatureExtractor.__init__`. -/
def max_freq : ℚ := 2000

/-- Python's built-in `abs`, written so that it is kernel-computable on ℚ. -/
def ratAbs (q : ℚ) : ℚ := if q < 0 then -q else q

/-- Step 1 of `_validate_features` (lines 127-128): a negative Energy
is zeroed. -/
def step_energy (f : Features) : Features :=
  if f.Energy < 0 then { f with Energy := 0 } else f

/-- Step 1' of `_validate_features` (lines 130-131): a negative
RootMeanSquare is zeroed. -/
def step_rms (f : Features) : Features :=
  if f.RootMeanSquare < 0 then { f with RootMeanSquare := 0 } else f

/-- Step 2 of `_validate_features` (lines 134-135): a Pitch outside
`[min_freq, 1500]` is zeroed. -/
def step_pitch_band (f : Features) : Features :=
  if f.Pitch < min_freq ∨ f.Pitch > 1500 then { f with Pitch := 0 } else f

/-- Step 3 of `_validate_features` (lines 137-138): a PeakFreq outside
`[min_freq, max_freq]` is zeroed. -/
def step_peak_band (f : Features) : Features :=
  if f.PeakFreq < min_freq ∨ f.PeakFreq > max_freq then { f with PeakFreq := 0 } else f

/-- Step 4 of `_validate_features` (lines 141-145): when FundamentalFreq
and Pitch are both positive and differ by more than 1.0 Hz, Pitch is
overwritten with FundamentalFreq. -/
def step_reconcile (f : Features) : Features :=
  if f.FundamentalFreq > 0 ∧ f.Pitch > 0 then
    if ratAbs (f.FundamentalFreq - f.Pitch) > 1 then { f with Pitch := f.FundamentalFreq } else f
  else f

/-- `AudioFeatureExtractor._validate_features` (lines 124-147): the four
correction steps applied in source order to the mutable `features`
dictionary. -/
def validate_features (f : Features) : Features :=
  step_reconcile (step_peak_band (step_pitch_band (step_rms (step_energy f))))

/-- An all-zero record, used as a base point for concrete inputs. -/
def zeroFeatures : Features :=
  { Duration := 0, Energy := 0, RootMeanSquare := 0, ZeroCrossRate := 0,
    PeakFreq := 0, FundamentalFreq := 0, Pitch := 0,
    SpectralCentroid := 0, SpectralRolloff := 0 }

/-- `np.mean` over a one-dimensional array, as used on each row of the
magnitude matrix (`np.mean(D[idx], axis=1)`, line 116). -/
def listMean (l : List ℚ) : ℚ := l.sum / l.length

/-- `np.maximum` on two rationals, written as an `if` so that it mirrors
the comparison NumPy performs and stays computable. -/
def maxQ (a b : ℚ) : ℚ := if a ≤ b then b else a

/-- `np.max` over a one-dimensional array (undefined on the empty array;
the source only applies it to nonempty slices). -/
def maxListQ : List ℚ → ℚ
  | [] => 0
  | [x] => x
  | x :: y :: xs => maxQ x (maxListQ (y :: xs))

/-- `np.argmax` over a one-dimensional array: index of the first
occurrence of the maximum (0 on the empty array). -/
def argmaxIdx : List ℚ → ℕ
  | [] => 0
  | [_] => 0
  | x :: y :: xs => if maxListQ (y :: xs) > x then argmaxIdx (y :: xs) + 1 else 0

/-- `np.where((freqs >= self.min_freq) & (freqs <= self.max_freq))[0]`
(line 111): the indices of the frequency bins inside the vocal band. -/
def bandIdx (freqs : List ℚ) : List ℕ :=
  (List.range freqs.length).filter
    (fun i => decide (min_freq ≤ freqs.getD i 0 ∧ freqs.getD i 0 ≤ max_freq))

/-- `AudioFeatureExtractor._calculate_peak_frequency` (lines 103-122),
shallowly embedded over its two data dependencies: `freqs`, the FFT bin
frequencies, and `D`, the STFT magnitude matrix (row = frequency bin,
column = time frame).  Restrict to the in-band bins; if none, return 0;
average each remaining row across time; if the maximal average exceeds
0.05, return the frequency of the (first) maximal bin, else 0. -/
def calculate_peak_frequency (freqs : List ℚ) (D : List (List ℚ)) : ℚ :=
  let idx := bandIdx freqs
  if idx = [] then 0
  else
    let mean_magnitudes := idx.map (fun i => listMean (D.getD i []))
    if maxListQ mean_magnitudes > 1/20 then
      freqs.getD (idx.getD (argmaxIdx mean_magnitudes) 0) 0
    else 0

/-- `f0[voiced_flag]` (line 62): the frame-level pitch candidates at the
frames marked voiced.  A candidate is `none` when `pyin` produced NaN. -/
def voicedCandidates (f0 : List (Option ℚ)) (voiced : List Bool) : List (Option ℚ) :=
  ((f0.zip voiced).filter (fun p => p.2)).map (fun p => p.1)

/-- `np.nanmean`: the mean of the defined (non-NaN) entries; `none`
(NaN) when every entry is undefined or the array is empty. -/
def nanmean (l : List (Option ℚ)) : Option ℚ :=
  let vals := l.filterMap id
  if vals.isEmpty then none else some (vals.sum / vals.length)

/-- Lines 61-63: `fundamental_freq = 0.0` unless some frame is voiced
and the nanmean of the voiced candidates is strictly positive (a NaN
mean compares as not-greater-than-zero, exactly as in NumPy). -/
def fundamental_freq (f0 : List (Option ℚ)) (voiced : List Bool) : ℚ :=
  if voiced.any id ∧ (nanmean (voicedCandidates f0 voiced)).getD 0 > 0 then
    (nanmean (voicedCandidates f0 voiced)).getD 0
  else 0

/-- The raw per-file analyzer outputs that `extract_features` combines
(duration, time-domain reductions, STFT data for the peak-frequency
computation, `pyin` output, and the two spectral statistics).  These are
produced by librosa from the decoded waveform; the embedding takes them
as the inputs of the arithmetic that `extract_features` itself performs. -/
structure RawAnalysis where
  duration : ℚ
  energy : ℚ
  rms : ℚ
  zeroCrossings : ℚ
  freqs : List ℚ
  magnitudes : List (List ℚ)
  f0 : List (Option ℚ)
  voiced : List Bool
  spectralCentroid : ℚ
  spectralRolloff : ℚ

/-- The feature dictionary literal of lines 78-88, before
`_validate_features` is applied: `Pitch` is initialized to
`fundamental_freq` (line 75: `pitch = fundamental_freq`). -/
def preValidationFeatures (r : RawAnalysis) : Features :=
  { Duration := r.duration,
    Energy := r.energy,
    RootMeanSquare := r.rms,
    ZeroCrossRate := r.zeroCrossings,
    PeakFreq := calculate_peak_frequency r.freqs r.magnitudes,
    FundamentalFreq := fundamental_freq r.f0 r.voiced,
    Pitch := fundamental_freq r.f0 r.voiced,
    SpectralCentroid := r.spectralCentroid,
    SpectralRolloff := r.spectralRolloff }

/-- `AudioFeatureExtractor.extract_features` on a successfully decoded
and analyzed file: assemble the record and validate it (lines 74-97). -/
def extract_features (r : RawAnalysis) : Features :=
  validate_features (preValidationFeatures r)

/-- The whole `extract_features` body runs inside `try/except` (lines
25-101): a decode/analysis failure (`none`) yields `None` instead of an
exception; otherwise the validated record is returned. -/
def extract_features_opt (r : Option RawAnalysis) : Option Features :=
  r.map extract_features

/-- Python `str.split(sep)` for a one-character separator, over the
character list of the string. -/
def splitOnChar (sep : Char) : List Char → List (List Char)
  | [] => [[]]
  | c :: cs =>
    match splitOnChar sep cs with
    | [] => [[]]
    | h :: t => if c = sep then [] :: h :: t else (c :: h) :: t

/-- Helper for `splitextRoot`: given the reversed character list of a
file name, drop the extension (everything from the last dot on),
provided some character before that dot is not itself a dot; `none`
when there is no extension to strip. -/
def dropExtRev : List Char → Option (List Char)
  | [] => none
  | c :: rest =>
    if c = '.' then (if rest.any (fun x => x ≠ '.') then some rest else none)
    else dropExtRev rest

/-- `os.path.splitext(basename)[0]`: the name with its extension
removed; a leading-dots-only prefix does not count as an extension. -/
def splitextRoot (s : List Char) : List Char :=
  match dropExtRev s.reverse with
  | some r => r.reverse
  | none => s

/-- `os.path.basename` for the paths this program builds (no trailing
separators): the component after the last `/` or `\` separator. -/
def basename (p : List Char) : List Char :=
  ((splitOnChar '\\' ((splitOnChar '/' p).getLastD [])).getLastD [])

/-- `extract_emotion_from_filename` (lines 149-161): label = the part of
the base name before the first `_` when one is present, else the base
name without its extension; then `emotion.replace("-", "_")` rewrites
every `-` (the pattern is a single character, so the replacement is a
character map). -/
def extract_emotion_from_filename (filename : String) : String :=
  let b := basename filename.toList
  let emotion := if b.contains '_' then (splitOnChar '_' b).headD [] else splitextRoot b
  String.mk (emotion.map (fun c => if c = '-' then '_' else c))

/-- One `Sample` dictionary (lines 193-197). -/
structure Sample where
  FilePath : String
  Emotion : String
  Features : Features
deriving DecidableEq, Repr

/-- The `library` dictionary (lines 166-170): `samples` is embedded as
an association list so that the insertion order of keys is kept. -/
structure Library where
  totalSamples : ℕ
  emotions : List String
  samples : List (String × List Sample)
deriving DecidableEq, Repr

/-- The initial library of lines 166-170. -/
def emptyLibrary : Library := { totalSamples := 0, emotions := [], samples := [] }

/-- `library["samples"][emotion].append(sample)` (line 200) on the
association-list embedding of the dictionary. -/
def appendSample (samples : List (String × List Sample)) (e : String) (s : Sample)
    : List (String × List Sample) :=
  samples.map (fun p => if p.1 = e then (p.1, p.2 ++ [s]) else p)

/-- One iteration of the `for audio_file in audio_files` loop (lines
180-201): register the label on first sight, then extract; on success
append the sample and increment `totalSamples`, on failure (`None`) do
nothing more.  `extract` abstracts `extractor.extract_features`. -/
def processOne (extract : String → Option Features) (lib : Library) (path : String) : Library :=
  let emotion := extract_emotion_from_filename path
  let lib1 :=
    if emotion ∈ lib.emotions then lib
    else { lib with
            emotions := lib.emotions ++ [emotion],
            samples := lib.samples ++ [(emotion, [])] }
  match extract path with
  | none => lib1
  | some features =>
    { lib1 with
      samples := appendSample lib1.samples emotion
        { FilePath := path, Emotion := emotion, Features := features },
      totalSamples := lib1.totalSamples + 1 }

/-- `process_audio_files` (lines 163-208), over the discovered file list
and an abstracted per-file extractor: fold the loop body over the files
starting from the fresh library. -/
def process_audio_files (extract : String → Option Features) (files : List String) : Library :=
  files.foldl (processOne extract) emptyLibrary

/-- The total number of `Sample` values stored in the `samples` mapping. -/
def sampleCount (lib : Library) : ℕ := (lib.samples.map (fun p => p.2.length)).sum

/-- An all-zero raw analysis, used as a base point for concrete inputs. -/
def zeroRaw : RawAnalysis :=
  { duration := 0, energy := 0, rms := 0, zeroCrossings := 0, freqs := [], magnitudes := [],
    f0 := [], voiced := [], spectralCentroid := 0, spectralRolloff := 0 }

/-- The combined well-formedness of the aggregated library: the
`emotions` list is exactly the key list of `samples`, has no duplicate,
and `totalSamples` counts the stored samples. -/
def LibraryInv (lib : Library) : Prop :=
  lib.emotions = lib.samples.map Prod.fst ∧
  lib.emotions.Nodup ∧
  lib.totalSamples = sampleCount lib

/-! ## Properties of the feature validator -/

theorem ratAbs_eq_abs (q : ℚ) : ratAbs q = |q| := by
  unfold ratAbs
  rcases lt_or_ge q 0 with h | h
  · rw [if_pos h, abs_of_neg h]
  · rw [if_neg (not_lt.mpr h), abs_of_nonneg h]

theorem step_energy_eq (f : Features) :
    step_energy f = { f with Energy := if f.Energy < 0 then 0 else f.Energy } := by
  unfold step_energy
  split_ifs <;> simp_all

theorem step_rms_eq (f : Features) :
    step_rms f =
      { f with RootMeanSquare := if f.RootMeanSquare < 0 then 0 else f.RootMeanSquare } := by
  unfold step_rms
  split_ifs <;> simp_all

theorem step_pitch_band_eq (f : Features) :
    step_pitch_band f =
      { f with Pitch := if f.Pitch < min_freq ∨ f.Pitch > 1500 then 0 else f.Pitch } := by
  unfold step_pitch_band
  split_ifs <;> simp_all

theorem step_peak_band_eq (f : Features) :
    step_peak_band f =
      { f with PeakFreq := if f.PeakFreq < min_freq ∨ f.PeakFreq > max_freq
                           then 0 else f.PeakFreq } := by
  unfold step_peak_band
  split_ifs <;> simp_all

theorem step_reconcile_eq (f : Features) :
    step_reconcile f =
      { f with Pitch :=
          if f.FundamentalFreq > 0 ∧ f.Pitch > 0 ∧ ratAbs (f.FundamentalFreq - f.Pitch) > 1
          then f.FundamentalFreq else f.Pitch } := by
  unfold step_reconcile
  split_ifs <;> simp_all

theorem validate_features_Pitch (f : Features) :
    (validate_features f).Pitch =
      if f.FundamentalFreq > 0
          ∧ (if f.Pitch < min_freq ∨ f.Pitch > 1500 then (0 : ℚ) else f.Pitch) > 0
          ∧ ratAbs (f.FundamentalFreq -
              (if f.Pitch < min_freq ∨ f.Pitch > 1500 then (0 : ℚ) else f.Pitch)) > 1
      then f.FundamentalFreq
      else if f.Pitch < min_freq ∨ f.Pitch > 1500 then 0 else f.Pitch := by
  simp [validate_features, step_energy_eq, step_rms_eq, step_pitch_band_eq, step_peak_band_eq,
    step_reconcile_eq]

theorem validate_features_PeakFreq (f : Features) :
    (validate_features f).PeakFreq =
      if f.PeakFreq < min_freq ∨ f.PeakFreq > max_freq then 0 else f.PeakFreq := by
  simp [validate_features, step_energy_eq, step_rms_eq, step_pitch_band_eq, step_peak_band_eq,
    step_reconcile_eq]

theorem validate_features_Duration (f : Features) :
    (validate_features f).Duration = f.Duration := by
  simp [validate_features, step_energy_eq, step_rms_eq, step_pitch_band_eq, step_peak_band_eq,
    step_reconcile_eq]

theorem validate_features_ZeroCrossRate (f : Features) :
    (validate_features f).ZeroCrossRate = f.ZeroCrossRate := by
  simp [validate_features, step_energy_eq, step_rms_eq, step_pitch_band_eq, step_peak_band_eq,
    step_reconcile_eq]

theorem validate_features_FundamentalFreq (f : Features) :
    (validate_features f).FundamentalFreq = f.FundamentalFreq := by
  simp [validate_features, step_energy_eq, step_rms_eq, step_pitch_band_eq, step_peak_band_eq,
    step_reconcile_eq]

theorem validate_features_SpectralCentroid (f : Features) :
    (validate_features f).SpectralCentroid = f.SpectralCentroid := by
  simp [validate_features, step_energy_eq, step_rms_eq, step_pitch_band_eq, step_peak_band_eq,
    step_reconcile_eq]

theorem validate_features_SpectralRolloff (f : Features) :
    (validate_features f).SpectralRolloff = f.SpectralRolloff := by
  simp [validate_features, step_energy_eq, step_rms_eq, step_pitch_band_eq, step_peak_band_eq,
    step_reconcile_eq]

/-- C10: `_validate_features` mutates at most Energy, RootMeanSquare,
Pitch and PeakFreq; the Duration, ZeroCrossRate, FundamentalFreq,
SpectralCentroid and SpectralRolloff fields of every input record are
returned unchanged. -/
theorem claim_C10_validator_frame (f : Features) :
    (validate_features f).Duration = f.Duration ∧
    (validate_features f).ZeroCrossRate = f.ZeroCrossRate ∧
    (validate_features f).FundamentalFreq = f.FundamentalFreq ∧
    (validate_features f).SpectralCentroid = f.SpectralCentroid ∧
    (validate_features f).SpectralRolloff = f.SpectralRolloff :=
  ⟨validate_features_Duration f, validate_features_ZeroCrossRate f,
   validate_features_FundamentalFreq f, validate_features_SpectralCentroid f,
   validate_features_SpectralRolloff f⟩

/-- C3: the reconciliation step runs after the band-zeroing steps and
sees their results.  If step 2 zeroed the Pitch, the reconciliation
guard fails and the result stays 0 even when FundamentalFreq is
positive; and when FundamentalFreq is not positive the Pitch is never
overwritten, only possibly zeroed by step 2. -/
theorem claim_C3_reconcile_after_band (f : Features) :
    ((f.Pitch < min_freq ∨ f.Pitch > 1500) → (validate_features f).Pitch = 0) ∧
    (f.FundamentalFreq ≤ 0 →
      (validate_features f).Pitch =
        if f.Pitch < min_freq ∨ f.Pitch > 1500 then 0 else f.Pitch) := by
  constructor
  · intro hband
    rw [validate_features_Pitch]
    simp only [if_pos hband]
    rw [if_neg]
    rintro ⟨-, h2, -⟩
    exact absurd h2 (by norm_num)
  · intro hfund
    rw [validate_features_Pitch]
    exact if_neg (fun h => absurd h.1 (not_lt.mpr hfund))

/-- Witness for C3 at `Pitch = 2000` (zeroed by step 2 while
`FundamentalFreq = 300 > 0`) and at `FundamentalFreq = 0`. -/
theorem claim_C3_reconcile_after_band_witness :
    (validate_features { zeroFeatures with FundamentalFreq := 300, Pitch := 2000 }).Pitch = 0 ∧
    (validate_features { zeroFeatures with FundamentalFreq := 0, Pitch := 100 }).Pitch =
      (if ({ zeroFeatures with FundamentalFreq := 0, Pitch := 100 } : Features).Pitch < min_freq ∨
          ({ zeroFeatures with FundamentalFreq := 0, Pitch := 100 } : Features).Pitch > 1500
       then 0
       else ({ zeroFeatures with FundamentalFreq := 0, Pitch := 100 } : Features).Pitch) :=
  ⟨(claim_C3_reconcile_after_band _).1 (by decide),
   (claim_C3_reconcile_after_band _).2 (by decide)⟩

/-- Counterexample to C1 as stated: on the record with
`FundamentalFreq = 3000` and `Pitch = 100`, the validator's
reconciliation step overwrites the in-band Pitch with the out-of-band
FundamentalFreq, so the returned Pitch is 3000, neither 0 nor in
`[70, 1500]`. -/
theorem claim_C1_counterexample :
    (validate_features { zeroFeatures with FundamentalFreq := 3000, Pitch := 100 }).Pitch = 3000 ∧
    ¬ ((validate_features { zeroFeatures with FundamentalFreq := 3000, Pitch := 100 }).Pitch = 0 ∨
        (70 ≤ (validate_features { zeroFeatures with FundamentalFreq := 3000, Pitch := 100 }).Pitch ∧
         (validate_features { zeroFeatures with FundamentalFreq := 3000, Pitch := 100 }).Pitch ≤ 1500)) := by
  have h : (validate_features { zeroFeatures with FundamentalFreq := 3000, Pitch := 100 }).Pitch
      = 3000 := by
    rw [validate_features_Pitch]
    norm_num [min_freq, ratAbs]
  refine ⟨h, ?_⟩
  rw [h]
  norm_num

/-- C1 amended: the PeakFreq half of the band invariant holds for every
record; the Pitch half holds for every record whose pre-validation
Pitch equals its FundamentalFreq (which is how `extract_features`
always builds the record). -/
theorem claim_C1_band_invariant (f : Features) :
    ((validate_features f).PeakFreq = 0 ∨
      (70 ≤ (validate_features f).PeakFreq ∧ (validate_features f).PeakFreq ≤ 2000)) ∧
    (f.Pitch = f.FundamentalFreq →
      ((validate_features f).Pitch = 0 ∨
        (70 ≤ (validate_features f).Pitch ∧ (validate_features f).Pitch ≤ 1500))) := by
  constructor
  · rw [validate_features_PeakFreq]
    split_ifs with h
    · exact Or.inl rfl
    · push_neg at h
      exact Or.inr ⟨by simpa [min_freq] using h.1, by simpa [max_freq] using h.2⟩
  · intro hpf
    rw [validate_features_Pitch]
    by_cases hband : f.Pitch < min_freq ∨ f.Pitch > 1500
    · simp only [if_pos hband]
      rw [if_neg]
      · exact Or.inl rfl
      · rintro ⟨-, h2, -⟩
        exact absurd h2 (by norm_num)
    · simp only [if_neg hband]
      rw [if_neg]
      · push_neg at hband
        exact Or.inr ⟨by simpa [min_freq] using hband.1, hband.2⟩
      · rintro ⟨-, -, h3⟩
        rw [hpf, sub_self] at h3
        exact absurd h3 (by norm_num [ratAbs])

/-- Witness for C1 (amended) at `Pitch = FundamentalFreq = 100`. -/
theorem claim_C1_band_invariant_witness :
    (validate_features { zeroFeatures with FundamentalFreq := 100, Pitch := 100 }).Pitch = 0 ∨
      (70 ≤ (validate_features { zeroFeatures with FundamentalFreq := 100, Pitch := 100 }).Pitch ∧
       (validate_features { zeroFeatures with FundamentalFreq := 100, Pitch := 100 }).Pitch ≤ 1500) :=
  (claim_C1_band_invariant _).2 rfl

/-- Counterexample to C2 as stated: the record with
`FundamentalFreq = 500` and `Pitch = 2000` satisfies the claim's
pre-validation hypotheses (both positive, differing by more than 1.0),
yet validation returns Pitch 0, not 500: step 2 zeroes the out-of-band
Pitch first, and the zero short-circuits the reconciliation guard. -/
theorem claim_C2_counterexample :
    ({ zeroFeatures with FundamentalFreq := 500, Pitch := 2000 } : Features).FundamentalFreq > 0 ∧
    ({ zeroFeatures with FundamentalFreq := 500, Pitch := 2000 } : Features).Pitch > 0 ∧
    ratAbs (({ zeroFeatures with FundamentalFreq := 500, Pitch := 2000 } : Features).FundamentalFreq -
        ({ zeroFeatures with FundamentalFreq := 500, Pitch := 2000 } : Features).Pitch) > 1 ∧
    (validate_features { zeroFeatures with FundamentalFreq := 500, Pitch := 2000 }).Pitch ≠
      ({ zeroFeatures with FundamentalFreq := 500, Pitch := 2000 } : Features).FundamentalFreq := by
  refine ⟨by decide, by decide, by norm_num [ratAbs], ?_⟩
  have h : (validate_features { zeroFeatures with FundamentalFreq := 500, Pitch := 2000 }).Pitch
      = 0 := by
    rw [validate_features_Pitch]
    norm_num [min_freq]
  rw [h]
  norm_num

/-- C2 amended: the reconciliation conclusion holds when the
pre-validation Pitch additionally lies in `[min_freq, 1500]`, so that
step 2 does not zero it before the reconciliation guard is tested. -/
theorem claim_C2_reconciliation (f : Features)
    (h1 : f.FundamentalFreq > 0) (h2 : min_freq ≤ f.Pitch) (h3 : f.Pitch ≤ 1500)
    (h4 : ratAbs (f.FundamentalFreq - f.Pitch) > 1) :
    (validate_features f).Pitch = f.FundamentalFreq := by
  have hband : ¬(f.Pitch < min_freq ∨ f.Pitch > 1500) := by
    push_neg
    exact ⟨h2, h3⟩
  have hp : f.Pitch > 0 := lt_of_lt_of_le (by norm_num [min_freq]) h2
  rw [validate_features_Pitch]
  simp only [if_neg hband]
  rw [if_pos ⟨h1, hp, h4⟩]

/-- Witness for C2 (amended) at `FundamentalFreq = 500`, `Pitch = 100`. -/
theorem claim_C2_reconciliation_witness :
    (validate_features { zeroFeatures with FundamentalFreq := 500, Pitch := 100 }).Pitch =
      ({ zeroFeatures with FundamentalFreq := 500, Pitch := 100 } : Features).FundamentalFreq :=
  claim_C2_reconciliation _ (by decide) (by decide) (by decide) (by norm_num [ratAbs])

/-- C9: every record produced by the full per-file pipeline
(`extract_features`, which initializes Pitch to the fundamental
frequency before validating) has post-validation Pitch equal to 0 or to
its FundamentalFreq. -/
theorem claim_C9_pitch_zero_or_fundamental (r : RawAnalysis) :
    (extract_features r).Pitch = 0 ∨
      (extract_features r).Pitch = (extract_features r).FundamentalFreq := by
  unfold extract_features
  rw [validate_features_FundamentalFreq, validate_features_Pitch]
  have hpf : (preValidationFeatures r).Pitch = (preValidationFeatures r).FundamentalFreq := rfl
  by_cases hband : (preValidationFeatures r).Pitch < min_freq ∨ (preValidationFeatures r).Pitch > 1500
  · simp only [if_pos hband]
    rw [if_neg]
    · exact Or.inl rfl
    · rintro ⟨-, h2, -⟩
      exact absurd h2 (by norm_num)
  · simp only [if_neg hband]
    rw [if_neg]
    · exact Or.inr hpf
    · rintro ⟨-, -, h3⟩
      rw [hpf, sub_self] at h3
      exact absurd h3 (by norm_num [ratAbs])

/-! ## Properties of the peak-frequency computation -/

theorem getD_of_lt {α : Type} (l : List α) (n : ℕ) (d : α) (h : n < l.length) :
    l.getD n d = l[n] := by
  rw [List.getD_eq_getElem?_getD, List.getElem?_eq_getElem h, Option.getD_some]

theorem argmaxIdx_lt_length : ∀ (l : List ℚ), l ≠ [] → argmaxIdx l < l.length
  | [], h => absurd rfl h
  | [_], _ => by simp [argmaxIdx]
  | x :: y :: xs, _ => by
    unfold argmaxIdx
    split_ifs with h
    · have ih := argmaxIdx_lt_length (y :: xs) (by simp)
      simpa using Nat.succ_lt_succ ih
    · simp

theorem getD_argmaxIdx : ∀ (l : List ℚ), l ≠ [] → l.getD (argmaxIdx l) 0 = maxListQ l
  | [], h => absurd rfl h
  | [_], _ => by simp [argmaxIdx, maxListQ]
  | x :: y :: xs, _ => by
    have ih := getD_argmaxIdx (y :: xs) (by simp)
    unfold argmaxIdx
    split_ifs with h
    · have hx : x ≤ maxListQ (y :: xs) := le_of_lt h
      calc (x :: y :: xs).getD (argmaxIdx (y :: xs) + 1) 0
          = (y :: xs).getD (argmaxIdx (y :: xs)) 0 := rfl
        _ = maxListQ (y :: xs) := ih
        _ = maxListQ (x :: y :: xs) := by
            show maxListQ (y :: xs) = maxQ x (maxListQ (y :: xs))
            unfold maxQ
            rw [if_pos hx]
    · show x = maxListQ (x :: y :: xs)
      show x = maxQ x (maxListQ (y :: xs))
      unfold maxQ
      split_ifs with h2
      · exact le_antisymm h2 (not_lt.mp h)
      · rfl

/-- C5: the peak-frequency computation restricts the bins to
`[min_freq, max_freq]` (first conjunct characterizes the selected
indices), returns 0 when no bin is in band, returns 0 when the maximal
time-averaged magnitude over the in-band bins does not exceed 0.05, and
otherwise returns the frequency of a bin whose time-averaged magnitude
is that maximum. -/
theorem claim_C5_peak_frequency (freqs : List ℚ) (D : List (List ℚ)) :
    (∀ i, i ∈ bandIdx freqs ↔
        i < freqs.length ∧ min_freq ≤ freqs.getD i 0 ∧ freqs.getD i 0 ≤ max_freq) ∧
    (bandIdx freqs = [] → calculate_peak_frequency freqs D = 0) ∧
    (bandIdx freqs ≠ [] →
      maxListQ ((bandIdx freqs).map (fun i => listMean (D.getD i []))) ≤ 1/20 →
      calculate_peak_frequency freqs D = 0) ∧
    (bandIdx freqs ≠ [] →
      maxListQ ((bandIdx freqs).map (fun i => listMean (D.getD i []))) > 1/20 →
      ∃ j ∈ bandIdx freqs,
        listMean (D.getD j []) =
          maxListQ ((bandIdx freqs).map (fun i => listMean (D.getD i []))) ∧
        calculate_peak_frequency freqs D = freqs.getD j 0) := by
  refine ⟨?_, ?_, ?_, ?_⟩
  · intro i
    simp [bandIdx, List.mem_filter, List.mem_range]
  · intro h
    simp only [calculate_peak_frequency]
    rw [if_pos h]
  · intro hne hle
    simp only [calculate_peak_frequency]
    rw [if_neg hne, if_neg (not_lt.mpr hle)]
  · intro hne hgt
    simp only [calculate_peak_frequency]
    rw [if_neg hne, if_pos hgt]
    have hmm_ne : (bandIdx freqs).map (fun i => listMean (D.getD i [])) ≠ [] := by
      simpa using hne
    have hlt : argmaxIdx ((bandIdx freqs).map (fun i => listMean (D.getD i []))) <
        ((bandIdx freqs).map (fun i => listMean (D.getD i []))).length :=
      argmaxIdx_lt_length _ hmm_ne
    have hlt' : argmaxIdx ((bandIdx freqs).map (fun i => listMean (D.getD i []))) <
        (bandIdx freqs).length := by simpa using hlt
    refine ⟨(bandIdx freqs).getD
        (argmaxIdx ((bandIdx freqs).map (fun i => listMean (D.getD i [])))) 0, ?_, ?_, rfl⟩
    · rw [getD_of_lt _ _ _ hlt']
      exact List.getElem_mem hlt'
    · have hmax := getD_argmaxIdx _ hmm_ne
      rw [getD_of_lt _ _ _ hlt] at hmax
      rw [List.getElem_map] at hmax
      rw [← hmax, getD_of_lt _ _ _ hlt']

/-- Witness for C5: an out-of-band bin list, a quiet in-band bin, and a
loud in-band bin. -/
theorem claim_C5_peak_frequency_witness :
    calculate_peak_frequency [(10:ℚ)] [] = 0 ∧
    calculate_peak_frequency [(100:ℚ)] [[0]] = 0 ∧
    (∃ j ∈ bandIdx [(100:ℚ)],
      listMean ([[(1:ℚ)]].getD j []) =
        maxListQ ((bandIdx [(100:ℚ)]).map (fun i => listMean ([[(1:ℚ)]].getD i []))) ∧
      calculate_peak_frequency [(100:ℚ)] [[1]] = [(100:ℚ)].getD j 0) := by
  refine ⟨(claim_C5_peak_frequency [10] []).2.1 (by decide),
          (claim_C5_peak_frequency [100] [[0]]).2.2.1 (by decide) ?_,
          (claim_C5_peak_frequency [100] [[1]]).2.2.2 (by decide) ?_⟩
  · have hb : bandIdx [(100:ℚ)] = [0] := by decide
    rw [hb]
    norm_num [listMean, maxListQ]
  · have hb : bandIdx [(100:ℚ)] = [0] := by decide
    rw [hb]
    norm_num [listMean, maxListQ]

/-! ## Properties of the fundamental-frequency aggregation -/

theorem voiced_any_of_candidates_ne_nil {f0 : List (Option ℚ)} {voiced : List Bool}
    (h : voicedCandidates f0 voiced ≠ []) : voiced.any id = true := by
  unfold voicedCandidates at h
  rw [ne_eq, List.map_eq_nil_iff] at h
  rw [List.filter_eq_nil_iff] at h
  push_neg at h
  obtain ⟨⟨a, b⟩, hp, hptrue⟩ := h
  rw [List.any_eq_true]
  exact ⟨b, (List.of_mem_zip hp).2, by simpa using hptrue⟩

/-- C6: the aggregate fundamental frequency is 0 when no frame is
voiced, 0 when the nanmean of the voiced candidates is NaN (`none`) or
not strictly positive, and otherwise equals that mean; and the
pre-validation record initializes Pitch to exactly this aggregate,
hence equal to its FundamentalFreq. -/
theorem claim_C6_fundamental_mean (f0 : List (Option ℚ)) (voiced : List Bool) (r : RawAnalysis) :
    (voiced.any id = false → fundamental_freq f0 voiced = 0) ∧
    (nanmean (voicedCandidates f0 voiced) = none → fundamental_freq f0 voiced = 0) ∧
    (∀ m, nanmean (voicedCandidates f0 voiced) = some m →
      (m ≤ 0 → fundamental_freq f0 voiced = 0) ∧
      (0 < m → fundamental_freq f0 voiced = m)) ∧
    (preValidationFeatures r).Pitch = fundamental_freq r.f0 r.voiced ∧
    (preValidationFeatures r).Pitch = (preValidationFeatures r).FundamentalFreq := by
  refine ⟨?_, ?_, ?_, rfl, rfl⟩
  · intro hv
    unfold fundamental_freq
    rw [if_neg]
    rintro ⟨h1, -⟩
    rw [hv] at h1
    exact Bool.false_ne_true h1
  · intro hn
    unfold fundamental_freq
    rw [hn]
    rw [if_neg]
    rintro ⟨-, h2⟩
    exact absurd h2 (by norm_num)
  · intro m hm
    constructor
    · intro hle
      unfold fundamental_freq
      rw [hm]
      rw [if_neg]
      rintro ⟨-, h2⟩
      rw [Option.getD_some] at h2
      exact absurd h2 (not_lt.mpr hle)
    · intro hpos
      have hvc : voicedCandidates f0 voiced ≠ [] := by
        intro hnil
        rw [hnil] at hm
        simp [nanmean] at hm
      have hany := voiced_any_of_candidates_ne_nil hvc
      unfold fundamental_freq
      rw [hm]
      rw [if_pos ⟨hany, by rwa [Option.getD_some]⟩]
      exact Option.getD_some ..

/-- Witness for C6: no voiced frame, one voiced frame at 100 Hz, and
the Pitch initialization on the zero analysis. -/
theorem claim_C6_fundamental_mean_witness :
    fundamental_freq [] [] = 0 ∧
    fundamental_freq [some 100] [true] = 100 ∧
    (preValidationFeatures zeroRaw).Pitch = (preValidationFeatures zeroRaw).FundamentalFreq := by
  have hm : nanmean (voicedCandidates [some 100] [true]) = some 100 := by
    have hv : voicedCandidates [some 100] [true] = [some 100] := by decide
    rw [hv]
    have hf : List.filterMap id [some (100:ℚ)] = [100] := by decide
    simp only [nanmean, hf]
    norm_num
  exact ⟨(claim_C6_fundamental_mean [] [] zeroRaw).1 rfl,
         ((claim_C6_fundamental_mean [some 100] [true] zeroRaw).2.2.1 100 hm).2 (by norm_num),
         (claim_C6_fundamental_mean [] [] zeroRaw).2.2.2.2⟩

/-! ## Properties of the library aggregator -/

theorem appendSample_keys (s : List (String × List Sample)) (e : String) (smp : Sample) :
    (appendSample s e smp).map Prod.fst = s.map Prod.fst := by
  unfold appendSample
  rw [List.map_map]
  apply List.map_congr_left
  intro p _
  by_cases h : p.1 = e <;> simp [h]

theorem appendSample_of_not_mem (s : List (String × List Sample)) (e : String) (smp : Sample)
    (h : e ∉ s.map Prod.fst) : appendSample s e smp = s := by
  induction s with
  | nil => rfl
  | cons p rest ih =>
      simp only [List.map_cons, List.mem_cons, not_or] at h
      simp only [appendSample, List.map_cons]
      rw [if_neg (fun hpe => h.1 hpe.symm)]
      have hrest := ih h.2
      simp only [appendSample] at hrest
      rw [hrest]

theorem appendSample_count (s : List (String × List Sample)) (e : String) (smp : Sample)
    (hnd : (s.map Prod.fst).Nodup) (hmem : e ∈ s.map Prod.fst) :
    ((appendSample s e smp).map (fun p => p.2.length)).sum
      = (s.map (fun p => p.2.length)).sum + 1 := by
  induction s with
  | nil => simp at hmem
  | cons p rest ih =>
      simp only [List.map_cons, List.nodup_cons] at hnd
      rcases List.mem_cons.mp hmem with he | he
      · simp only [appendSample, List.map_cons]
        rw [if_pos he.symm]
        have hrest : appendSample rest e smp = rest :=
          appendSample_of_not_mem rest e smp (he ▸ hnd.1)
        simp only [appendSample] at hrest
        rw [hrest]
        simp only [List.map_cons, List.sum_cons, List.length_append]
        simp
        omega
      · have hne : p.1 ≠ e := fun hpe => hnd.1 (hpe ▸ he)
        simp only [appendSample, List.map_cons]
        rw [if_neg hne]
        have hresteq := ih hnd.2 he
        simp only [appendSample] at hresteq
        simp only [List.map_cons, List.sum_cons, hresteq]
        omega

theorem processOne_totalSamples (ex : String → Option Features) (lib : Library) (p : String) :
    (processOne ex lib p).totalSamples
      = lib.totalSamples + (if (ex p).isSome then 1 else 0) := by
  cases h : ex p <;> simp [processOne, h] <;> split_ifs <;> rfl

theorem processOne_emotions (ex : String → Option Features) (lib : Library) (p : String) :
    (processOne ex lib p).emotions
      = lib.emotions ++
          (if extract_emotion_from_filename p ∈ lib.emotions then []
           else [extract_emotion_from_filename p]) := by
  cases h : ex p <;> simp only [processOne, h] <;> split_ifs with hm <;> simp [hm]

theorem processOne_keys (ex : String → Option Features) (lib : Library) (p : String) :
    (processOne ex lib p).samples.map Prod.fst
      = lib.samples.map Prod.fst ++
          (if extract_emotion_from_filename p ∈ lib.emotions then []
           else [extract_emotion_from_filename p]) := by
  cases h : ex p <;> simp only [processOne, h] <;> split_ifs with hm <;>
    simp [appendSample_keys, hm]

theorem processOne_sampleCount (ex : String → Option Features) (lib : Library) (p : String)
    (h1 : lib.emotions = lib.samples.map Prod.fst) (h2 : lib.emotions.Nodup) :
    sampleCount (processOne ex lib p)
      = sampleCount lib + (if (ex p).isSome then 1 else 0) := by
  cases h : ex p
  · simp only [processOne, h, Option.isSome_none, if_neg Bool.false_ne_true]
    split_ifs with hm
    · simp
    · simp [sampleCount]
  · simp only [processOne, h, Option.isSome_some, if_pos rfl]
    split_ifs with hm
    · have hkey : extract_emotion_from_filename p ∈ lib.samples.map Prod.fst := h1 ▸ hm
      have hnd : (lib.samples.map Prod.fst).Nodup := h1 ▸ h2
      simp only [sampleCount]
      rw [appendSample_count _ _ _ hnd hkey]
    · have hkeys : (lib.samples ++ [(extract_emotion_from_filename p, [])]).map Prod.fst
          = lib.samples.map Prod.fst ++ [extract_emotion_from_filename p] := by simp
      have hnd : ((lib.samples ++ [(extract_emotion_from_filename p, [])]).map Prod.fst).Nodup := by
        rw [hkeys, ← h1]
        simp [List.nodup_append, h2, hm]
      have hkey : extract_emotion_from_filename p
          ∈ (lib.samples ++ [(extract_emotion_from_filename p, [])]).map Prod.fst := by
        simp
      simp only [sampleCount]
      rw [appendSample_count _ _ _ hnd hkey]
      simp

theorem processOne_inv (ex : String → Option Features) (lib : Library) (p : String)
    (h : LibraryInv lib) : LibraryInv (processOne ex lib p) := by
  obtain ⟨h1, h2, h3⟩ := h
  refine ⟨?_, ?_, ?_⟩
  · rw [processOne_emotions, processOne_keys, h1]
  · rw [processOne_emotions]
    split_ifs with hm
    · simpa using h2
    · simp [List.nodup_append, h2, hm]
  · rw [processOne_totalSamples, processOne_sampleCount ex lib p h1 h2, h3]

theorem foldl_inv (ex : String → Option Features) :
    ∀ (files : List String) (lib : Library),
      LibraryInv lib → LibraryInv (files.foldl (processOne ex) lib)
  | [], _, h => h
  | f :: rest, lib, h => foldl_inv ex rest (processOne ex lib f) (processOne_inv ex lib f h)

theorem processOne_mem_emotions (ex : String → Option Features) (lib : Library) (p : String)
    (e : String) :
    e ∈ (processOne ex lib p).emotions ↔
      e ∈ lib.emotions ∨ e = extract_emotion_from_filename p := by
  rw [processOne_emotions]
  by_cases hm : extract_emotion_from_filename p ∈ lib.emotions
  · simp only [if_pos hm, List.append_nil]
    constructor
    · exact Or.inl
    · rintro (h | rfl)
      · exact h
      · exact hm
  · simp [if_neg hm, List.mem_append]

theorem foldl_mem_emotions (ex : String → Option Features) (e : String) :
    ∀ (files : List String) (lib : Library),
      e ∈ (files.foldl (processOne ex) lib).emotions ↔
        e ∈ lib.emotions ∨ e ∈ files.map extract_emotion_from_filename
  | [], lib => by simp
  | f :: rest, lib => by
      rw [List.foldl_cons, foldl_mem_emotions ex e rest (processOne ex lib f),
        processOne_mem_emotions]
      simp only [List.map_cons, List.mem_cons]
      tauto

theorem foldl_totalSamples (ex : String → Option Features) :
    ∀ (files : List String) (lib : Library),
      (files.foldl (processOne ex) lib).totalSamples
        = lib.totalSamples + (files.filter (fun p => (ex p).isSome)).length
  | [], lib => by simp
  | f :: rest, lib => by
      rw [List.foldl_cons, foldl_totalSamples ex rest (processOne ex lib f),
        processOne_totalSamples, List.filter_cons]
      by_cases hf : (ex f).isSome
      · simp [hf]
        omega
      · simp [hf]

theorem filter_isSome_isNone_length (ex : String → Option Features) :
    ∀ (fs : List String),
      (fs.filter (fun p => (ex p).isSome)).length
        + (fs.filter (fun p => (ex p).isNone)).length = fs.length
  | [] => rfl
  | f :: rest => by
      rw [List.filter_cons, List.filter_cons]
      have ih := filter_isSome_isNone_length ex rest
      cases h : ex f <;> simp [h] <;> omega

/-- Counterexample to C4 as stated: one discovered file `sad_1.mp3`
whose extraction fails.  The label is registered in `emotions` before
extraction is attempted, so `emotions` has length 1 even though zero
files were processed (the distinct-label count over the processed,
non-skipped files is 0). -/
theorem claim_C4_counterexample :
    (process_audio_files (fun _ => none) ["sad_1.mp3"]).emotions.length = 1 ∧
    ((["sad_1.mp3"].filter (fun p => ((fun _ => (none : Option Features)) p).isSome)).map
        extract_emotion_from_filename).length = 0 := by
  constructor <;> decide

/-- C4 amended: after a full run, `totalSamples` equals the number of
files whose extraction succeeded (equivalently `N - #skipped`), the
`emotions` list has one entry per distinct label among ALL discovered
files (labels of skipped files included, since the label is registered
before extraction is attempted), `emotions` is exactly the key list of
`samples`, and `totalSamples` counts the stored samples. -/
theorem claim_C4_aggregator (ex : String → Option Features) (files : List String) :
    (process_audio_files ex files).totalSamples
        = (files.filter (fun p => (ex p).isSome)).length ∧
    (process_audio_files ex files).totalSamples
        = files.length - (files.filter (fun p => (ex p).isNone)).length ∧
    (process_audio_files ex files).emotions.length
        = (files.map extract_emotion_from_filename).toFinset.card ∧
    (process_audio_files ex files).emotions
        = (process_audio_files ex files).samples.map Prod.fst ∧
    (process_audio_files ex files).totalSamples
        = sampleCount (process_audio_files ex files) := by
  have hinv : LibraryInv (process_audio_files ex files) :=
    foldl_inv ex files emptyLibrary ⟨rfl, List.nodup_nil, rfl⟩
  have htot : (process_audio_files ex files).totalSamples
      = (files.filter (fun p => (ex p).isSome)).length := by
    rw [process_audio_files, foldl_totalSamples]
    simp [emptyLibrary]
  have hsum := filter_isSome_isNone_length ex files
  refine ⟨htot, by omega, ?_, hinv.1, hinv.2.2⟩
  have hmem : ∀ e, e ∈ (process_audio_files ex files).emotions ↔
      e ∈ files.map extract_emotion_from_filename := by
    intro e
    rw [process_audio_files, foldl_mem_emotions]
    simp [emptyLibrary]
  have hfin : (process_audio_files ex files).emotions.toFinset
      = (files.map extract_emotion_from_filename).toFinset := by
    ext a
    simp [List.mem_toFinset, hmem]
  rw [← List.toFinset_card_of_nodup hinv.2.1, hfin]

/-- C7: the files `happy_1.wav` and `happy_2.wav` both resolve to the
label "happy" by the filename convention, both samples land in
`samples["happy"]` in order, and `totalSamples = 2`; `g` gives the
extracted features of each file. -/
theorem claim_C7_happy_scenario (g : String → Features) :
    extract_emotion_from_filename "happy_1.wav" = "happy" ∧
    extract_emotion_from_filename "happy_2.wav" = "happy" ∧
    process_audio_files (fun p => some (g p)) ["happy_1.wav", "happy_2.wav"] =
      { totalSamples := 2, emotions := ["happy"],
        samples := [("happy",
          [{ FilePath := "happy_1.wav", Emotion := "happy", Features := g "happy_1.wav" },
           { FilePath := "happy_2.wav", Emotion := "happy", Features := g "happy_2.wav" }])] } :=
  ⟨rfl, rfl, rfl⟩

/-- C8: when decoding/analysis of a file fails, `extract_features`
returns the failure marker (`none`, the embedding of the `try/except`
that returns `None`); the loop iteration for that file neither
increments `totalSamples` nor stores a sample, and the fold simply
continues with the remaining files. -/
theorem claim_C8_failure_skipped (decode : String → Option RawAnalysis) (lib : Library)
    (p : String) (rest : List String) (h : decode p = none) :
    extract_features_opt (decode p) = none ∧
    (processOne (fun q => extract_features_opt (decode q)) lib p).totalSamples
      = lib.totalSamples ∧
    sampleCount (processOne (fun q => extract_features_opt (decode q)) lib p)
      = sampleCount lib ∧
    (p :: rest).foldl (processOne (fun q => extract_features_opt (decode q))) lib
      = rest.foldl (processOne (fun q => extract_features_opt (decode q)))
          (processOne (fun q => extract_features_opt (decode q)) lib p) := by
  have hex : extract_features_opt (decode p) = none := by rw [h]; rfl
  refine ⟨hex, ?_, ?_, rfl⟩
  · rw [processOne_totalSamples]
    simp [hex]
  · simp only [processOne, hex]
    split_ifs with hm
    · rfl
    · simp [sampleCount]

/-- Witness for C8: a decoder that fails on `bad.mp3`, starting from
the fresh library. -/
theorem claim_C8_failure_skipped_witness :
    extract_features_opt ((fun _ : String => (none : Option RawAnalysis)) "bad.mp3") = none ∧
    (processOne (fun q => extract_features_opt ((fun _ : String => (none : Option RawAnalysis)) q))
        emptyLibrary "bad.mp3").totalSamples = emptyLibrary.totalSamples ∧
    sampleCount (processOne
        (fun q => extract_features_opt ((fun _ : String => (none : Option RawAnalysis)) q))
        emptyLibrary "bad.mp3") = sampleCount emptyLibrary ∧
    ("bad.mp3" :: []).foldl
        (processOne
          (fun q => extract_features_opt ((fun _ : String => (none : Option RawAnalysis)) q)))
        emptyLibrary
      = [].foldl
          (processOne
            (fun q => extract_features_opt ((fun _ : String => (none : Option RawAnalysis)) q)))
          (processOne
            (fun q => extract_features_opt ((fun _ : String => (none : Option RawAnalysis)) q))
            emptyLibrary "bad.mp3") :=
  claim_C8_failure_skipped (fun _ => none) emptyLibrary "bad.mp3" [] rfl

end MeowTalk
